import Mathlib

/-!
Monitor management service: the service and repository layer.

A shallow embedding of `internal/entity/monitor.go`, `internal/monitor/repository.go`
and `internal/monitor/service.go`.

* Go strings are Lean strings; Go's `len(s)` is `String.utf8ByteSize`, the number of
  characters (runes) is `String.length`.
* Go's `int` is `Int`; `time.Time` is a natural number of clock ticks.
* A Go result `(T, error)` is a pair `T × Option GoError` (`none` is the `nil` error); a Go
  slice is a list, the `nil` slice being the empty list.
* Stateful code threads the state explicitly: a method of the `Repository` interface maps a
  store state to its result and the next state.
* `entity.GenerateID()` and `time.Now()` are read from the environment: the value each of
  them yields during a call is an argument of the embedded function.
* The `context.Context` argument of every method carries no data the code reads and is
  left out; so is the `fmt.Println(err)` of the listing methods, which writes to standard
  output and changes neither the result nor the store.
* The storage engine, the query builder and the validation library are imported packages;
  they are modelled here by the definitions of the namespaces `dbx` and `validation`.
-/

namespace entity

/-- Go's `time.Time`, as a number of clock ticks since the epoch. -/
abbrev Time := Nat

/-- Apichecks represents the API Monitor registered. -/
structure Apichecks where
  ID : String
  Name : String
  Monitor_ID : String
  OrgID : String
  Tenant : String
  IsDeleted : Bool
  UpdatedAt : Time
deriving DecidableEq, Repr

/-- The Go zero value `entity.Apichecks{}`. -/
def Apichecks.zero : Apichecks :=
  { ID := "", Name := "", Monitor_ID := "", OrgID := "", Tenant := "",
    IsDeleted := false, UpdatedAt := 0 }

end entity

namespace validation

/-- The rule errors of the validation library that the two rules in use can produce. -/
inductive Err where
  | ErrRequired
  | ErrLengthTooLong
  | ErrLengthTooShort
  | ErrLengthInvalid
  | ErrLengthOutOfRange
  | ErrLengthEmptyRequired
deriving DecidableEq, Repr

/-- The validation rules used by the request types: `validation.Required` and
`validation.Length(min, max)`. -/
inductive Rule where
  | Required
  | Length (min max : Int)
deriving DecidableEq, Repr

/-- Model of the imported validation library (`ozzo-validation/v4`, not part of the
sources): its emptiness test on a string value; a string is empty when its `len` is zero. -/
def IsEmpty (value : String) : Bool :=
  value.utf8ByteSize == 0

/-- Model of the imported validation library: the error a `Length(min, max)` rule reports,
chosen from its bounds when the rule is built. -/
def buildLengthRuleError (min max : Int) : Err :=
  if min = 0 ∧ max > 0 then Err.ErrLengthTooLong
  else if min > 0 ∧ max = 0 then Err.ErrLengthTooShort
  else if min > 0 ∧ max > 0 then
    (if min = max then Err.ErrLengthInvalid else Err.ErrLengthOutOfRange)
  else Err.ErrLengthEmptyRequired

/-- Model of the imported validation library: one rule applied to a string value.
`Required` rejects the empty value. `Length` accepts the empty value and otherwise measures
the value with `len`, that is in bytes (the library's rune-counting rule is `RuneLength`,
which the request types do not use); a bound of `0` is no bound. -/
def Rule.Validate : Rule → String → Option Err
  | Rule.Required, value => if IsEmpty value then some Err.ErrRequired else none
  | Rule.Length min max, value =>
    if IsEmpty value then none
    else
      let l : Int := (value.utf8ByteSize : Int)
      if (min > 0 ∧ l < min) ∨ (max > 0 ∧ l > max) ∨ (min = 0 ∧ max = 0 ∧ l > 0) then
        some (buildLengthRuleError min max)
      else none

/-- Model of the imported validation library: `validation.Field(&v, rules...)` applies the
rules in order and stops at the first one that fails. -/
def Field (value : String) : List Rule → Option Err
  | [] => none
  | r :: rs =>
    match r.Validate value with
    | some e => some e
    | none => Field value rs

end validation

/-- The Go `error` values that flow through the package: the validation library's
`validation.Errors` (one entry, for the field that failed), `sql.ErrNoRows`, and any other
failure reported by the storage engine. -/
inductive GoError where
  | validation (field : String) (e : validation.Err)
  | ErrNoRows
  | storage (msg : String)
deriving DecidableEq, Repr

/-- Model of the imported validation library: `validation.ValidateStruct` over a struct
with a single validated field; the result is `nil` or the error map holding that field's
error. -/
def validation.ValidateStruct (field : String) (value : String) (rules : List validation.Rule) :
    Option GoError :=
  match validation.Field value rules with
  | some e => some (GoError.validation field e)
  | none => none

namespace dbx

open entity

/-- The kinds of statement run against the table. -/
inductive Stmt where
  | select
  | insert
  | update
  | delete
deriving DecidableEq, Repr

/-- Modelled from the spec: the storage behind `dbcontext.DB` (package `pkg/dbcontext` and
the query builder are not part of the sources): one logical table of monitor rows keyed by
`id`. `log` is the trace of the statements run so far, oldest first; it is what is counted
as storage calls. -/
structure DB where
  rows : List Apichecks
  log : List Stmt
deriving DecidableEq, Repr

/-- Record one statement in the trace. -/
def DB.exec (db : DB) (s : Stmt) : DB :=
  { db with log := db.log ++ [s] }

/-- Modelled from the spec: `Select("*").From(table).Model(id, &monitor)`: the row with the
given primary key, or the zero value and `sql.ErrNoRows` when no row matches. -/
def SelectModel (id : String) (db : DB) : (Apichecks × Option GoError) × DB :=
  match db.rows.find? (fun r => r.ID == id) with
  | some r => ((r, none), db.exec Stmt.select)
  | none => ((Apichecks.zero, some GoError.ErrNoRows), db.exec Stmt.select)

/-- Modelled from the spec: `Model(&monitor).Insert()`: adds the record; fails with a
storage error (constraint violation) when the `id` already exists. -/
def Insert (monitor : Apichecks) (db : DB) : Option GoError × DB :=
  if db.rows.any (fun r => r.ID == monitor.ID) then
    (some (GoError.storage "duplicate key"), db.exec Stmt.insert)
  else
    (none, { rows := db.rows ++ [monitor], log := db.log ++ [Stmt.insert] })

/-- Modelled from the spec: `Model(&monitor).Update()`: sets every column of the rows whose
primary key is that of the record. -/
def Update (monitor : Apichecks) (db : DB) : Option GoError × DB :=
  (none, { rows := db.rows.map (fun r => if r.ID = monitor.ID then monitor else r),
           log := db.log ++ [Stmt.update] })

/-- Modelled from the spec: `Model(&monitor).Delete()`: removes the rows whose primary key
is that of the record. -/
def Delete (monitor : Apichecks) (db : DB) : Option GoError × DB :=
  (none, { rows := db.rows.filter (fun r => r.ID != monitor.ID),
           log := db.log ++ [Stmt.delete] })

/-- Modelled from the spec: `Select("COUNT(*)").From(table).Row(&count)`. -/
def CountRows (where_ : Apichecks → Bool) (db : DB) : (Int × Option GoError) × DB :=
  ((((db.rows.filter where_).length : Int), none), db.exec Stmt.select)

/-- The order of `OrderBy("id")`: ids compared character by character. -/
def idLE (a b : Apichecks) : Prop :=
  a.ID.toList ≤ b.ID.toList

instance : DecidableRel idLE :=
  fun a b => inferInstanceAs (Decidable (a.ID.toList ≤ b.ID.toList))

instance : IsTotal Apichecks idLE :=
  ⟨fun a b => le_total a.ID.toList b.ID.toList⟩

instance : IsTrans Apichecks idLE :=
  ⟨fun _ _ _ h1 h2 => le_trans h1 h2⟩

/-- Model of the imported query builder (`ozzo-dbx`, not part of the sources): the `LIMIT`
and `OFFSET` clauses it emits: a negative limit is no limit, an offset that is not positive
is no offset. -/
def BuildLimit (limit offset : Int) : Option Int × Option Int :=
  let limit := if limit < 0 ∧ offset > 0 then 9223372036854775807 else limit
  (if limit ≥ 0 then some limit else none, if offset ≤ 0 then none else some offset)

/-- Apply the clauses of `BuildLimit` to the ordered rows: skip `offset` rows, then keep at
most `limit`. -/
def applyLimit (clauses : Option Int × Option Int) (xs : List Apichecks) : List Apichecks :=
  let skipped := match clauses.2 with
    | some o => xs.drop o.toNat
    | none => xs
  match clauses.1 with
  | some l => skipped.take l.toNat
  | none => skipped

/-- Modelled from the spec: `Select("*").From(table).Where(cond).OrderBy("id")
.Offset(offset).Limit(limit).All(&monitors)`: the rows that match, in ascending `id`
order, cut to the page. -/
def All (where_ : Apichecks → Bool) (offset limit : Int) (db : DB) :
    (List Apichecks × Option GoError) × DB :=
  ((applyLimit (BuildLimit limit offset) ((db.rows.filter where_).insertionSort idLE), none),
    db.exec Stmt.select)

end dbx

namespace monitor

open entity

/-- Repository encapsulates the logic to access monitors from the data source. Each method
maps a store state to its result and the next state. -/
structure Repository (σ : Type) where
  /-- Get returns the monitor with the specified row ID. -/
  Get : String → σ → (Apichecks × Option GoError) × σ
  /-- GetByOrg returns the monitor with the specified org ID. -/
  GetByOrg : String → Int → Int → σ → (List Apichecks × Option GoError) × σ
  GetByTenant : String → Int → Int → σ → (List Apichecks × Option GoError) × σ
  /-- Count returns the number of monitors. -/
  Count : σ → (Int × Option GoError) × σ
  /-- Query returns the list of monitors with the given offset and limit. -/
  Query : Int → Int → σ → (List Apichecks × Option GoError) × σ
  /-- Create saves a new monitor in the storage. -/
  Create : Apichecks → σ → Option GoError × σ
  /-- Update updates the monitor with given ID in the storage. -/
  Update : Apichecks → σ → Option GoError × σ
  /-- Delete removes the monitor with given ID from the storage. -/
  Delete : String → σ → Option GoError × σ
  /-- Modelled from the spec: the repository counting operation that `service.CountByOrg`
  calls; the interface in `repository.go` does not declare it. -/
  CountByOrg : String → σ → (Int × Option GoError) × σ
  /-- Modelled from the spec: the repository counting operation that
  `service.CountByTenant` calls; the interface in `repository.go` does not declare it. -/
  CountByTenant : String → σ → (Int × Option GoError) × σ

namespace repository

open dbx

/-- Get reads the monitor with the specified ID from the database. -/
def Get (id : String) (db : DB) : (Apichecks × Option GoError) × DB :=
  SelectModel id db

/-- Create saves a new monitor record in the database. -/
def Create (monitor : Apichecks) (db : DB) : Option GoError × DB :=
  dbx.Insert monitor db

/-- Update saves the changes to an monitor in the database. -/
def Update (monitor : Apichecks) (db : DB) : Option GoError × DB :=
  dbx.Update monitor db

/-- Delete deletes an monitor with the specified ID from the database. -/
def Delete (id : String) (db : DB) : Option GoError × DB :=
  match Get id db with
  | ((_, some err), db1) => (some err, db1)
  | ((monitor, none), db1) => dbx.Delete monitor db1

/-- Count returns the number of the monitor records in the database. -/
def Count (db : DB) : (Int × Option GoError) × DB :=
  CountRows (fun _ => true) db

/-- Query retrieves the monitor records with the specified offset and limit. -/
def Query (offset limit : Int) (db : DB) : (List Apichecks × Option GoError) × DB :=
  All (fun _ => true) offset limit db

/-- GetByTenant retrieves the page of the monitor records of one tenant. -/
def GetByTenant (tenant : String) (offset limit : Int) (db : DB) :
    (List Apichecks × Option GoError) × DB :=
  All (fun r => r.Tenant == tenant) offset limit db

/-- GetByOrg retrieves the page of the monitor records of one organization. -/
def GetByOrg (org_id : String) (offset limit : Int) (db : DB) :
    (List Apichecks × Option GoError) × DB :=
  All (fun r => r.OrgID == org_id) offset limit db

/-- Modelled from the spec: `repository.CountByOrg`, which is not in `repository.go`:
the number of monitors whose `org_id` matches. -/
def CountByOrg (org_id : String) (db : DB) : (Int × Option GoError) × DB :=
  CountRows (fun r => r.OrgID == org_id) db

/-- Modelled from the spec: `repository.CountByTenant`, which is not in `repository.go`:
the number of monitors whose `tenant` matches. -/
def CountByTenant (tenant : String) (db : DB) : (Int × Option GoError) × DB :=
  CountRows (fun r => r.Tenant == tenant) db

end repository

/-- NewRepository: the repository that persists monitors in the database. -/
def NewRepository : Repository dbx.DB :=
  { Get := repository.Get
    GetByOrg := repository.GetByOrg
    GetByTenant := repository.GetByTenant
    Count := repository.Count
    Query := repository.Query
    Create := repository.Create
    Update := repository.Update
    Delete := repository.Delete
    CountByOrg := repository.CountByOrg
    CountByTenant := repository.CountByTenant }

/-- Monitor represents the data about an monitor. -/
structure Monitor where
  Apichecks : entity.Apichecks
deriving DecidableEq, Repr

/-- The Go zero value `Monitor{}`. -/
def Monitor.zero : Monitor :=
  { Apichecks := entity.Apichecks.zero }

/-- CreateMonitorRequest represents an monitor creation request. -/
structure CreateMonitorRequest where
  Name : String
deriving DecidableEq, Repr

/-- Validate validates the CreateMonitorRequest fields. -/
def CreateMonitorRequest.Validate (m : CreateMonitorRequest) : Option GoError :=
  validation.ValidateStruct "name" m.Name
    [validation.Rule.Required, validation.Rule.Length 0 128]

/-- UpdateMonitorRequest represents an monitor update request. -/
structure UpdateMonitorRequest where
  Name : String
deriving DecidableEq, Repr

/-- Validate validates the UpdateMonitorRequest fields. -/
def UpdateMonitorRequest.Validate (m : UpdateMonitorRequest) : Option GoError :=
  validation.ValidateStruct "name" m.Name
    [validation.Rule.Required, validation.Rule.Length 0 128]

namespace service

variable {σ : Type}

/-- Get returns the monitor with the specified the monitor ID. -/
def Get (repo : Repository σ) (id : String) (s : σ) : (Monitor × Option GoError) × σ :=
  match repo.Get id s with
  | ((_, some err), s1) => ((Monitor.zero, some err), s1)
  | ((monitor, none), s1) => ((Monitor.mk monitor, none), s1)

/-- Create creates a new monitor. `id` is the value of `entity.GenerateID()` and `now` the
value of `time.Now()` during the call. -/
def Create (repo : Repository σ) (id : String) (now : Time) (req : CreateMonitorRequest)
    (s : σ) : (Monitor × Option GoError) × σ :=
  match req.Validate with
  | some err => ((Monitor.zero, some err), s)
  | none =>
    match repo.Create { Apichecks.zero with ID := id, Name := req.Name, UpdatedAt := now } s with
    | (some err, s1) => ((Monitor.zero, some err), s1)
    | (none, s1) => Get repo id s1

/-- Update updates the monitor with the specified ID. `now` is the value of `time.Now()`
during the call. -/
def Update (repo : Repository σ) (now : Time) (id : String) (req : UpdateMonitorRequest)
    (s : σ) : (Monitor × Option GoError) × σ :=
  match req.Validate with
  | some err => ((Monitor.zero, some err), s)
  | none =>
    match Get repo id s with
    | ((monitor, some err), s1) => ((monitor, some err), s1)
    | ((monitor, none), s1) =>
      let monitor : Monitor :=
        { Apichecks := { monitor.Apichecks with Name := req.Name, UpdatedAt := now } }
      match repo.Update monitor.Apichecks s1 with
      | (some err, s2) => ((monitor, some err), s2)
      | (none, s2) => ((monitor, none), s2)

/-- Delete deletes the monitor with the specified ID. -/
def Delete (repo : Repository σ) (id : String) (s : σ) : (Monitor × Option GoError) × σ :=
  match Get repo id s with
  | ((_, some err), s1) => ((Monitor.zero, some err), s1)
  | ((monitor, none), s1) =>
    match repo.Delete id s1 with
    | (some err, s2) => ((Monitor.zero, some err), s2)
    | (none, s2) => ((monitor, none), s2)

/-- Count returns the number of monitors. -/
def Count (repo : Repository σ) (s : σ) : (Int × Option GoError) × σ :=
  repo.Count s

/-- CountByOrg returns the number of monitors of one organization. -/
def CountByOrg (repo : Repository σ) (org_id : String) (s : σ) : (Int × Option GoError) × σ :=
  repo.CountByOrg org_id s

/-- CountByTenant returns the number of monitors of one tenant. -/
def CountByTenant (repo : Repository σ) (tenant : String) (s : σ) :
    (Int × Option GoError) × σ :=
  repo.CountByTenant tenant s

/-- The loop `for _, item := range items { result = append(result, Monitor{item}) }`
started from `result := []Monitor{}`. -/
def wrapItems (items : List Apichecks) : List Monitor :=
  items.foldl (fun result item => result ++ [Monitor.mk item]) []

/-- Query returns the monitors with the specified offset and limit. -/
def Query (repo : Repository σ) (offset limit : Int) (s : σ) :
    (List Monitor × Option GoError) × σ :=
  match repo.Query offset limit s with
  | ((_, some err), s1) => (([], some err), s1)
  | ((items, none), s1) => ((wrapItems items, none), s1)

/-- GetByTenant returns the page of the monitors of one tenant. -/
def GetByTenant (repo : Repository σ) (tenant : String) (offset limit : Int) (s : σ) :
    (List Monitor × Option GoError) × σ :=
  match repo.GetByTenant tenant offset limit s with
  | ((_, some err), s1) => (([], some err), s1)
  | ((items, none), s1) => ((wrapItems items, none), s1)

/-- GetByOrg returns the page of the monitors of one organization. -/
def GetByOrg (repo : Repository σ) (tenant : String) (offset limit : Int) (s : σ) :
    (List Monitor × Option GoError) × σ :=
  match repo.GetByOrg tenant offset limit s with
  | ((_, some err), s1) => (([], some err), s1)
  | ((items, none), s1) => ((wrapItems items, none), s1)

end service

end monitor

namespace monitor

open entity

/-- The calls of the `Service` interface, each with its arguments; `Create` and `Update`
also carry what the environment yields during the call (the generated id, the clock). -/
inductive Call where
  | Get (id : String)
  | GetByOrg (org_id : String) (offset limit : Int)
  | GetByTenant (tenant : String) (offset limit : Int)
  | Query (offset limit : Int)
  | Count
  | CountByOrg (org_id : String)
  | CountByTenant (tenant : String)
  | Create (genId : String) (now : Time) (input : CreateMonitorRequest)
  | Update (now : Time) (id : String) (input : UpdateMonitorRequest)
  | Delete (id : String)
deriving DecidableEq, Repr

/-- One call of the service, seen from outside: the error it returns and the store state it
leaves. -/
def Call.run {σ : Type} (repo : Repository σ) (c : Call) (s : σ) : Option GoError × σ :=
  match c with
  | Call.Get id => ((service.Get repo id s).1.2, (service.Get repo id s).2)
  | Call.GetByOrg org_id offset limit =>
    ((service.GetByOrg repo org_id offset limit s).1.2,
      (service.GetByOrg repo org_id offset limit s).2)
  | Call.GetByTenant tenant offset limit =>
    ((service.GetByTenant repo tenant offset limit s).1.2,
      (service.GetByTenant repo tenant offset limit s).2)
  | Call.Query offset limit =>
    ((service.Query repo offset limit s).1.2, (service.Query repo offset limit s).2)
  | Call.Count => ((service.Count repo s).1.2, (service.Count repo s).2)
  | Call.CountByOrg org_id =>
    ((service.CountByOrg repo org_id s).1.2, (service.CountByOrg repo org_id s).2)
  | Call.CountByTenant tenant =>
    ((service.CountByTenant repo tenant s).1.2, (service.CountByTenant repo tenant s).2)
  | Call.Create genId now input =>
    ((service.Create repo genId now input s).1.2, (service.Create repo genId now input s).2)
  | Call.Update now id input =>
    ((service.Update repo now id input s).1.2, (service.Update repo now id input s).2)
  | Call.Delete id => ((service.Delete repo id s).1.2, (service.Delete repo id s).2)

end monitor

/-! ## Sample stores -/

namespace monitor

open entity dbx

/-- The record a `Create` of the name `web` stores under the id `m1` at time 7. -/
def rowWeb : Apichecks :=
  { ID := "m1", Name := "web", Monitor_ID := "", OrgID := "", Tenant := "",
    IsDeleted := false, UpdatedAt := 7 }

/-- The empty store, no statement run yet. -/
def dbEmpty : DB :=
  { rows := [], log := [] }

/-- A name of 43 characters, each of three bytes: 129 bytes. -/
def nameWide : String :=
  String.mk (List.replicate 43 '監')

/-- A monitor of organization `org1` and tenant `t1`. -/
def rowA : Apichecks :=
  { ID := "a", Name := "api", Monitor_ID := "mon-a", OrgID := "org1", Tenant := "t1",
    IsDeleted := false, UpdatedAt := 3 }

/-- A monitor of organization `org1` and tenant `t2`. -/
def rowB : Apichecks :=
  { ID := "b", Name := "db", Monitor_ID := "mon-b", OrgID := "org1", Tenant := "t2",
    IsDeleted := false, UpdatedAt := 4 }

/-- A monitor of organization `org2` and tenant `t1`. -/
def rowC : Apichecks :=
  { ID := "c", Name := "cache", Monitor_ID := "mon-c", OrgID := "org2", Tenant := "t1",
    IsDeleted := true, UpdatedAt := 5 }

/-- A store of three monitors, not in id order, no statement run yet. -/
def dbSample : DB :=
  { rows := [rowB, rowC, rowA], log := [] }

/-- A repository whose storage is unreachable: every method fails with a storage error,
the listings handing back no rows. -/
def unreachableRepository : Repository Unit :=
  { Get := fun _ s => ((Apichecks.zero, some (GoError.storage "connection refused")), s)
    GetByOrg := fun _ _ _ s => (([], some (GoError.storage "connection refused")), s)
    GetByTenant := fun _ _ _ s => (([], some (GoError.storage "connection refused")), s)
    Count := fun s => ((0, some (GoError.storage "connection refused")), s)
    Query := fun _ _ s => (([], some (GoError.storage "connection refused")), s)
    Create := fun _ s => (some (GoError.storage "connection refused"), s)
    Update := fun _ s => (some (GoError.storage "connection refused"), s)
    Delete := fun _ s => (some (GoError.storage "connection refused"), s)
    CountByOrg := fun _ s => ((0, some (GoError.storage "connection refused")), s)
    CountByTenant := fun _ s => ((0, some (GoError.storage "connection refused")), s) }

end monitor

/-! ## Validation -/

namespace monitor

open entity

/-- A string has at least as many bytes as characters. -/
theorem utf8ByteSize_go_ge_length (cs : List Char) : cs.length ≤ String.utf8ByteSize.go cs := by
  induction cs with
  | nil => simp [String.utf8ByteSize.go]
  | cons c cs ih =>
    have hc := Char.utf8Size_pos c
    simp only [String.utf8ByteSize.go, List.length_cons]
    omega

/-- A string has at least as many bytes as characters. -/
theorem length_le_utf8ByteSize (s : String) : s.length ≤ s.utf8ByteSize := by
  cases s with
  | mk cs => exact utf8ByteSize_go_ge_length cs

/-- The two rules on `name`, evaluated: the empty name fails `Required`, a name of more than
128 bytes fails `Length(0, 128)`, every other name passes. -/
theorem validateStruct_name (name : String) :
    validation.ValidateStruct "name" name
        [validation.Rule.Required, validation.Rule.Length 0 128] =
      if name.utf8ByteSize = 0 then
        some (GoError.validation "name" validation.Err.ErrRequired)
      else if 128 < name.utf8ByteSize then
        some (GoError.validation "name" validation.Err.ErrLengthTooLong)
      else none := by
  unfold validation.ValidateStruct validation.Field validation.Field validation.Field
  unfold validation.Rule.Validate validation.IsEmpty
  by_cases h0 : name.utf8ByteSize = 0
  · simp [h0]
  · by_cases h1 : 128 < name.utf8ByteSize
    · have h2 : (128 : Int) < (name.utf8ByteSize : Int) := by exact_mod_cast h1
      simp [h0, h1, h2, validation.buildLengthRuleError]
    · have h2 : ¬ (128 : Int) < (name.utf8ByteSize : Int) := by
        intro h; apply h1; exact_mod_cast h
      simp [h0, h1, h2]

/-- A name that is empty or longer than 128 characters fails validation. -/
theorem validateStruct_invalid (name : String) (hbad : name = "" ∨ 128 < name.length) :
    ∃ e, validation.ValidateStruct "name" name
        [validation.Rule.Required, validation.Rule.Length 0 128] =
      some (GoError.validation "name" e) := by
  rw [validateStruct_name]
  have hlen := length_le_utf8ByteSize name
  by_cases h0 : name.utf8ByteSize = 0
  · exact ⟨validation.Err.ErrRequired, by simp [h0]⟩
  · rcases hbad with h | h
    · subst h
      exact absurd rfl h0
    · have h1 : 128 < name.utf8ByteSize := by omega
      exact ⟨validation.Err.ErrLengthTooLong, by simp [h0, h1]⟩

/-- A name that passes validation is non-empty and has at most 128 bytes, hence at most 128
characters. -/
theorem validateStruct_none (name : String)
    (h : validation.ValidateStruct "name" name
        [validation.Rule.Required, validation.Rule.Length 0 128] = none) :
    name ≠ "" ∧ 1 ≤ name.utf8ByteSize ∧ name.utf8ByteSize ≤ 128 ∧ name.length ≤ 128 := by
  rw [validateStruct_name] at h
  have hlen := length_le_utf8ByteSize name
  by_cases h0 : name.utf8ByteSize = 0
  · simp [h0] at h
  · by_cases h1 : 128 < name.utf8ByteSize
    · simp [h0, h1] at h
    · refine ⟨?_, by omega, by omega, by omega⟩
      intro hn
      subst hn
      exact h0 rfl

/-- The loop that wraps the rows is `map`. -/
theorem wrapItems_eq_map (items : List Apichecks) :
    service.wrapItems items = items.map Monitor.mk := by
  have key : ∀ (xs : List Apichecks) (acc : List Monitor),
      xs.foldl (fun result item => result ++ [Monitor.mk item]) acc
        = acc ++ xs.map Monitor.mk := by
    intro xs
    induction xs with
    | nil => intro acc; simp
    | cons x xs ih => intro acc; simp [ih]
  simpa [service.wrapItems] using key items []

end monitor

/-! ## The service over the database repository, evaluated -/

namespace monitor

open entity dbx

/-- `service.Get` over the database repository: one select, the row found or
`sql.ErrNoRows`. -/
theorem service_Get_eq (id : String) (db : DB) :
    service.Get NewRepository id db =
      match db.rows.find? (fun r => r.ID == id) with
      | some r => ((Monitor.mk r, none), db.exec Stmt.select)
      | none => ((Monitor.zero, some GoError.ErrNoRows), db.exec Stmt.select) := by
  unfold service.Get
  simp only [NewRepository, repository.Get, SelectModel]
  cases h : db.rows.find? (fun r => r.ID == id) <;> rfl

/-- `service.Create` over the database repository, once the name has passed validation. -/
theorem service_Create_eq (genId : String) (now : Time) (req : CreateMonitorRequest) (db : DB)
    (hvalid : req.Validate = none) :
    service.Create NewRepository genId now req db =
      if db.rows.any (fun r => r.ID == genId) then
        ((Monitor.zero, some (GoError.storage "duplicate key")), db.exec Stmt.insert)
      else
        ((Monitor.mk { Apichecks.zero with ID := genId, Name := req.Name, UpdatedAt := now },
            none),
          { rows := db.rows ++
              [{ Apichecks.zero with ID := genId, Name := req.Name, UpdatedAt := now }],
            log := db.log ++ [Stmt.insert, Stmt.select] }) := by
  unfold service.Create
  rw [hvalid]
  by_cases hany : db.rows.any (fun r => r.ID == genId) = true
  · simp [NewRepository, repository.Create, dbx.Insert, hany]
  · have hnone : db.rows.find? (fun r => r.ID == genId) = none := by
      rw [List.find?_eq_none]
      intro x hx hxid
      exact hany (List.any_eq_true.mpr ⟨x, hx, hxid⟩)
    have hget := fun s1 => service_Get_eq genId s1
    simp only [NewRepository] at hget
    simp only [NewRepository, repository.Create, dbx.Insert, hany, Bool.false_eq_true, if_false,
      hget]
    simp [List.find?_append, hnone, DB.exec]

/-- `service.Update` over the database repository, once the name has passed validation. -/
theorem service_Update_eq (now : Time) (id : String) (req : UpdateMonitorRequest) (db : DB)
    (hvalid : req.Validate = none) :
    service.Update NewRepository now id req db =
      match db.rows.find? (fun r => r.ID == id) with
      | some r =>
        ((Monitor.mk { r with Name := req.Name, UpdatedAt := now }, none),
          { rows := db.rows.map (fun x =>
              if x.ID = r.ID then { r with Name := req.Name, UpdatedAt := now } else x),
            log := db.log ++ [Stmt.select, Stmt.update] })
      | none => ((Monitor.zero, some GoError.ErrNoRows), db.exec Stmt.select) := by
  unfold service.Update
  rw [hvalid, service_Get_eq]
  cases h : db.rows.find? (fun r => r.ID == id) with
  | none => rfl
  | some r => simp [NewRepository, repository.Update, dbx.Update, DB.exec]

/-- `service.Delete` over the database repository: the service's fetch, the repository's own
fetch, then the removal. -/
theorem service_Delete_eq (id : String) (db : DB) :
    service.Delete NewRepository id db =
      match db.rows.find? (fun r => r.ID == id) with
      | some r =>
        ((Monitor.mk r, none),
          { rows := db.rows.filter (fun x => x.ID != r.ID),
            log := db.log ++ [Stmt.select, Stmt.select, Stmt.delete] })
      | none => ((Monitor.zero, some GoError.ErrNoRows), db.exec Stmt.select) := by
  unfold service.Delete
  rw [service_Get_eq]
  cases h : db.rows.find? (fun r => r.ID == id) with
  | none => rfl
  | some r =>
    simp [NewRepository, repository.Delete, repository.Get, SelectModel, dbx.Delete, DB.exec, h]

end monitor

/-! ## Rows and primary keys -/

namespace monitor

open entity dbx

/-- With unique ids, the lookup by id finds the one record stored under that id. -/
theorem find_of_mem_of_nodup (rows : List Apichecks) (hnd : (rows.map (fun x => x.ID)).Nodup)
    (r : Apichecks) (hr : r ∈ rows) :
    rows.find? (fun x => x.ID == r.ID) = some r := by
  cases h : rows.find? (fun x => x.ID == r.ID) with
  | none =>
    rw [List.find?_eq_none] at h
    exact absurd (by simp) (h r hr)
  | some r0 =>
    have h0 : r0 ∈ rows := List.mem_of_find?_eq_some h
    have hid : r0.ID = r.ID := by simpa using List.find?_some h
    rw [List.inj_on_of_nodup_map hnd h0 hr hid]

/-- With unique ids, a row has the id of `r` exactly when it is `r`. -/
theorem id_eq_iff_of_nodup (rows : List Apichecks) (hnd : (rows.map (fun x => x.ID)).Nodup)
    (r : Apichecks) (hr : r ∈ rows) (x : Apichecks) (hx : x ∈ rows) :
    x.ID = r.ID ↔ x = r :=
  ⟨fun h => List.inj_on_of_nodup_map hnd hx hr h, fun h => by rw [h]⟩

/-- No row is found under an id that no row carries. -/
theorem find_none_of_absent (rows : List Apichecks) (id : String)
    (h : ∀ x ∈ rows, x.ID ≠ id) : rows.find? (fun x => x.ID == id) = none := by
  rw [List.find?_eq_none]
  intro x hx hxid
  exact h x hx (by simpa using hxid)

end monitor

/-! ## Claims on validation, create, update and delete -/

namespace monitor

open entity dbx

/-- C1: a name that is empty or longer than 128 characters makes `service.Create` and
`service.Update` (for any id) fail with a validation error and return the store state they
were given, for every repository: no repository method has run (over the database
repository the rows and the trace of statements are untouched), so `Count` is the same
before and after. Conversely, after a successful `Create` or `Update` over the database
repository the name stored under the id is the requested one, non-empty and of at most
128 characters. -/
theorem C1_invalid_name_rejected {σ : Type} (repo : Repository σ) (s : σ)
    (genId id : String) (now : Time) (name : String) :
    ((name = "" ∨ 128 < name.length) →
      (∃ e, service.Create repo genId now (CreateMonitorRequest.mk name) s =
          ((Monitor.zero, some (GoError.validation "name" e)), s)) ∧
      (∃ e, service.Update repo now id (UpdateMonitorRequest.mk name) s =
          ((Monitor.zero, some (GoError.validation "name" e)), s)) ∧
      (service.Count repo (service.Create repo genId now (CreateMonitorRequest.mk name) s).2).1 =
        (service.Count repo s).1 ∧
      (service.Count repo (service.Update repo now id (UpdateMonitorRequest.mk name) s).2).1 =
        (service.Count repo s).1) ∧
    (∀ (db db' : DB) (m : Monitor),
      service.Create NewRepository genId now (CreateMonitorRequest.mk name) db = ((m, none), db') →
      name ≠ "" ∧ name.length ≤ 128 ∧
        ∃ r, db'.rows.find? (fun x => x.ID == genId) = some r ∧ r.Name = name) ∧
    (∀ (db db' : DB) (m : Monitor),
      service.Update NewRepository now id (UpdateMonitorRequest.mk name) db = ((m, none), db') →
      name ≠ "" ∧ name.length ≤ 128 ∧
        ∃ r, db'.rows.find? (fun x => x.ID == id) = some r ∧ r.Name = name) := by
  refine ⟨?_, ?_, ?_⟩
  · intro hbad
    obtain ⟨e, he⟩ := validateStruct_invalid name hbad
    have hc : service.Create repo genId now (CreateMonitorRequest.mk name) s =
        ((Monitor.zero, some (GoError.validation "name" e)), s) := by
      unfold service.Create CreateMonitorRequest.Validate
      simp only [he]
    have hu : service.Update repo now id (UpdateMonitorRequest.mk name) s =
        ((Monitor.zero, some (GoError.validation "name" e)), s) := by
      unfold service.Update UpdateMonitorRequest.Validate
      simp only [he]
    exact ⟨⟨e, hc⟩, ⟨e, hu⟩, by rw [hc], by rw [hu]⟩
  · intro db db' m h
    cases hv : (CreateMonitorRequest.mk name).Validate with
    | some e =>
      unfold service.Create at h
      rw [hv] at h
      simp at h
    | none =>
      have hn := validateStruct_none name hv
      rw [service_Create_eq genId now _ db hv] at h
      by_cases hany : db.rows.any (fun r => r.ID == genId) = true
      · rw [if_pos hany] at h
        simp at h
      · rw [if_neg hany] at h
        have hnone : db.rows.find? (fun r => r.ID == genId) = none := by
          rw [List.find?_eq_none]
          intro x hx hxid
          exact hany (List.any_eq_true.mpr ⟨x, hx, hxid⟩)
        have hdb : db' = _ := (Prod.mk.inj h).2.symm
        refine ⟨hn.1, hn.2.2.2, ?_⟩
        rw [hdb]
        exact ⟨{ Apichecks.zero with ID := genId, Name := name, UpdatedAt := now },
          by simp [List.find?_append, hnone], rfl⟩
  · intro db db' m h
    cases hv : (UpdateMonitorRequest.mk name).Validate with
    | some e =>
      unfold service.Update at h
      rw [hv] at h
      simp at h
    | none =>
      have hn := validateStruct_none name hv
      rw [service_Update_eq now id _ db hv] at h
      cases hf : db.rows.find? (fun r => r.ID == id) with
      | none =>
        rw [hf] at h
        simp at h
      | some r =>
        rw [hf] at h
        have hdb : db' = _ := (Prod.mk.inj h).2.symm
        have hrid : r.ID = id := by simpa using List.find?_some hf
        refine ⟨hn.1, hn.2.2.2, ?_⟩
        rw [hdb]
        refine ⟨{ r with Name := name, UpdatedAt := now }, ?_, rfl⟩
        simp only [List.find?_map]
        have hcomp : ((fun x : Apichecks => x.ID == id) ∘ fun x : Apichecks =>
            if x.ID = r.ID then { r with Name := name, UpdatedAt := now } else x) =
            fun x => x.ID == id := by
          funext x
          by_cases hx : x.ID = r.ID
          · simp [hx, hrid]
          · simp [hx]
        rw [hcomp, hf]
        simp

/-- C1, at concrete inputs: the empty name on the empty store, and the name `web` created
on the empty store. -/
theorem C1_invalid_name_rejected_witness :
    ((∃ e, service.Create NewRepository "m1" 7 (CreateMonitorRequest.mk "") dbEmpty =
          ((Monitor.zero, some (GoError.validation "name" e)), dbEmpty)) ∧
      (∃ e, service.Update NewRepository 7 "m0" (UpdateMonitorRequest.mk "") dbEmpty =
          ((Monitor.zero, some (GoError.validation "name" e)), dbEmpty))) ∧
    ("web" ≠ "" ∧ "web".length ≤ 128 ∧
      ∃ r, (DB.mk [rowWeb] [Stmt.insert, Stmt.select]).rows.find? (fun x => x.ID == "m1") = some r ∧
        r.Name = "web") :=
  ⟨⟨((C1_invalid_name_rejected NewRepository dbEmpty "m1" "m0" 7 "").1 (Or.inl rfl)).1,
      ((C1_invalid_name_rejected NewRepository dbEmpty "m1" "m0" 7 "").1 (Or.inl rfl)).2.1⟩,
    (C1_invalid_name_rejected NewRepository dbEmpty "m1" "m0" 7 "web").2.1
        dbEmpty (DB.mk [rowWeb] [Stmt.insert, Stmt.select]) (Monitor.mk rowWeb) (by decide)⟩

end monitor

namespace monitor

open entity dbx

/-- C2 fails as stated: a name of 43 characters (inside the 1–128 character bound) that
takes 129 bytes is rejected by both `Validate` methods with the length error. -/
theorem C2_counterexample :
    (1 ≤ nameWide.length ∧ nameWide.length ≤ 128) ∧
    (CreateMonitorRequest.mk nameWide).Validate =
      some (GoError.validation "name" validation.Err.ErrLengthTooLong) ∧
    (UpdateMonitorRequest.mk nameWide).Validate =
      some (GoError.validation "name" validation.Err.ErrLengthTooLong) := by
  have hlen : nameWide.length = 43 := by decide
  have hsize : nameWide.utf8ByteSize = 129 := by decide
  refine ⟨by omega, ?_, ?_⟩
  · unfold CreateMonitorRequest.Validate
    rw [validateStruct_name]
    simp [hsize]
  · unfold UpdateMonitorRequest.Validate
    rw [validateStruct_name]
    simp [hsize]

/-- C2, amended: every name whose length in bytes (Go's `len`) is between 1 and 128
inclusive passes `CreateMonitorRequest.Validate` and `UpdateMonitorRequest.Validate`; every
name whose encoding takes more than 128 bytes is rejected by both with the length error,
and this includes names of 1 to 128 characters, since a name never has more characters
than bytes; so a non-empty name passes exactly when it has at most 128 bytes. -/
theorem C2_valid_name_accepted (name : String) :
    ((1 ≤ name.utf8ByteSize ∧ name.utf8ByteSize ≤ 128) →
      (CreateMonitorRequest.mk name).Validate = none ∧
      (UpdateMonitorRequest.mk name).Validate = none) ∧
    (128 < name.utf8ByteSize →
      (CreateMonitorRequest.mk name).Validate =
        some (GoError.validation "name" validation.Err.ErrLengthTooLong) ∧
      (UpdateMonitorRequest.mk name).Validate =
        some (GoError.validation "name" validation.Err.ErrLengthTooLong)) ∧
    ((1 ≤ name.length ∧ name.length ≤ 128 ∧ 128 < name.utf8ByteSize) →
      (CreateMonitorRequest.mk name).Validate ≠ none ∧
      (UpdateMonitorRequest.mk name).Validate ≠ none) ∧
    ((CreateMonitorRequest.mk name).Validate = none ↔
      (1 ≤ name.utf8ByteSize ∧ name.utf8ByteSize ≤ 128)) ∧
    ((UpdateMonitorRequest.mk name).Validate = none ↔
      (1 ≤ name.utf8ByteSize ∧ name.utf8ByteSize ≤ 128)) := by
  have hc : (CreateMonitorRequest.mk name).Validate =
      if name.utf8ByteSize = 0 then
        some (GoError.validation "name" validation.Err.ErrRequired)
      else if 128 < name.utf8ByteSize then
        some (GoError.validation "name" validation.Err.ErrLengthTooLong)
      else none := by
    unfold CreateMonitorRequest.Validate
    exact validateStruct_name name
  have hu : (UpdateMonitorRequest.mk name).Validate =
      if name.utf8ByteSize = 0 then
        some (GoError.validation "name" validation.Err.ErrRequired)
      else if 128 < name.utf8ByteSize then
        some (GoError.validation "name" validation.Err.ErrLengthTooLong)
      else none := by
    unfold UpdateMonitorRequest.Validate
    exact validateStruct_name name
  have hlong : 128 < name.utf8ByteSize →
      (CreateMonitorRequest.mk name).Validate =
        some (GoError.validation "name" validation.Err.ErrLengthTooLong) ∧
      (UpdateMonitorRequest.mk name).Validate =
        some (GoError.validation "name" validation.Err.ErrLengthTooLong) := by
    intro h
    have h0 : ¬ name.utf8ByteSize = 0 := by omega
    rw [hc, hu]
    simp [h0, h]
  have hiff : ∀ v : Option GoError,
      (v = if name.utf8ByteSize = 0 then
          some (GoError.validation "name" validation.Err.ErrRequired)
        else if 128 < name.utf8ByteSize then
          some (GoError.validation "name" validation.Err.ErrLengthTooLong)
        else none) →
      (v = none ↔ (1 ≤ name.utf8ByteSize ∧ name.utf8ByteSize ≤ 128)) := by
    intro v hv
    by_cases h0 : name.utf8ByteSize = 0
    · rw [hv]
      simp [h0]
    · by_cases h1 : 128 < name.utf8ByteSize
      · rw [hv]
        simp only [h0, h1, if_true, if_false]
        constructor
        · intro h
          exact absurd h (by simp)
        · intro h
          omega
      · rw [hv]
        simp only [h0, h1, if_false]
        constructor
        · intro _
          omega
        · intro _
          trivial
  refine ⟨?_, hlong, ?_, hiff _ hc, hiff _ hu⟩
  · intro h
    exact ⟨(hiff _ hc).mpr h, (hiff _ hu).mpr h⟩
  · intro h
    obtain ⟨h1, h2⟩ := hlong h.2.2
    rw [h1, h2]
    exact ⟨by simp, by simp⟩

/-- C2 amended, at the name `web` (3 bytes, accepted) and at a name of 43 characters that
takes 129 bytes (rejected). -/
theorem C2_valid_name_accepted_witness :
    ((1 ≤ "web".utf8ByteSize ∧ "web".utf8ByteSize ≤ 128) ∧
      (CreateMonitorRequest.mk "web").Validate = none ∧
      (UpdateMonitorRequest.mk "web").Validate = none) ∧
    ((1 ≤ nameWide.length ∧ nameWide.length ≤ 128 ∧ 128 < nameWide.utf8ByteSize) ∧
      (CreateMonitorRequest.mk nameWide).Validate ≠ none ∧
      (UpdateMonitorRequest.mk nameWide).Validate ≠ none) :=
  ⟨⟨⟨by decide, by decide⟩, (C2_valid_name_accepted "web").1 ⟨by decide, by decide⟩⟩,
    ⟨⟨by decide, by decide, by decide⟩,
      (C2_valid_name_accepted nameWide).2.2.1 ⟨by decide, by decide, by decide⟩⟩⟩

/-- C3: on every store, for a name that passes validation and a generated id that no row
carries, `service.Create` succeeds; the monitor it returns has the generated id, and a
following `service.Get` of that id returns a monitor with the same id, the requested name,
and `updated_at` equal to the reading of the clock taken during the call, which is not
before the time the call started. -/
theorem C3_create_then_get (db : DB) (N genId : String) (start now : Time)
    (hvalid : (CreateMonitorRequest.mk N).Validate = none)
    (hfresh : ∀ x ∈ db.rows, x.ID ≠ genId)
    (hclock : start ≤ now) :
    ∃ (m : Monitor) (db' : DB),
      service.Create NewRepository genId now (CreateMonitorRequest.mk N) db = ((m, none), db') ∧
      m.Apichecks.ID = genId ∧
      ∃ m' : Monitor,
        (service.Get NewRepository m.Apichecks.ID db').1 = (m', none) ∧
        m'.Apichecks.ID = m.Apichecks.ID ∧
        m'.Apichecks.Name = N ∧
        m'.Apichecks.UpdatedAt = now ∧
        start ≤ m'.Apichecks.UpdatedAt := by
  have hany : ¬ db.rows.any (fun r => r.ID == genId) = true := by
    intro h
    obtain ⟨x, hx, hxid⟩ := List.any_eq_true.mp h
    exact hfresh x hx (by simpa using hxid)
  have hnone := find_none_of_absent db.rows genId hfresh
  have hc := service_Create_eq genId now (CreateMonitorRequest.mk N) db hvalid
  rw [if_neg hany] at hc
  refine ⟨_, _, hc, rfl,
    Monitor.mk { Apichecks.zero with ID := genId, Name := N, UpdatedAt := now },
    ?_, rfl, rfl, rfl, hclock⟩
  rw [service_Get_eq]
  simp [List.find?_append, hnone]

/-- C3, at the name `web` created under the id `m1` on the empty store. -/
theorem C3_create_then_get_witness :
    ∃ (m : Monitor) (db' : DB),
      service.Create NewRepository "m1" 7 (CreateMonitorRequest.mk "web") dbEmpty =
        ((m, none), db') ∧
      m.Apichecks.ID = "m1" ∧
      ∃ m' : Monitor,
        (service.Get NewRepository m.Apichecks.ID db').1 = (m', none) ∧
        m'.Apichecks.ID = m.Apichecks.ID ∧
        m'.Apichecks.Name = "web" ∧
        m'.Apichecks.UpdatedAt = 7 ∧
        5 ≤ m'.Apichecks.UpdatedAt :=
  C3_create_then_get dbEmpty "web" "m1" 5 7 (by decide) (by decide) (by decide)

end monitor

namespace monitor

open entity dbx

/-- After the update statement, the lookup by id finds the updated record. -/
theorem find_after_update (rows : List Apichecks) (id : String) (r r' : Apichecks)
    (hf : rows.find? (fun x => x.ID == id) = some r) (hid : r'.ID = r.ID) :
    (rows.map (fun x => if x.ID = r.ID then r' else x)).find? (fun x => x.ID == id) =
      some r' := by
  have hrid : r.ID = id := by simpa using List.find?_some hf
  have hcomp : ((fun x : Apichecks => x.ID == id) ∘ fun x : Apichecks =>
      if x.ID = r.ID then r' else x) = fun x => x.ID == id := by
    funext x
    by_cases hx : x.ID = r.ID
    · simp [hx, hid, hrid]
    · simp [hx]
  rw [List.find?_map, hcomp, hf]
  simp

/-- C4: on a store with unique ids that holds the record `r` under `id`, `service.Update`
with a name `M` that passes validation succeeds, returns `r` with only the name replaced
by `M` and `updated_at` by the current time, stores exactly that record in the place of
`r` and leaves every other row as it was; for an id that no row carries it fails with the
repository's not-found error (`sql.ErrNoRows`) and leaves the rows unchanged. -/
theorem C4_update (db : DB) (now : Time) (id M : String)
    (hvalid : (UpdateMonitorRequest.mk M).Validate = none)
    (hnd : (db.rows.map (fun x => x.ID)).Nodup) :
    (∀ r ∈ db.rows, r.ID = id →
      ∃ db' : DB,
        service.Update NewRepository now id (UpdateMonitorRequest.mk M) db =
          ((Monitor.mk { ID := r.ID, Name := M, Monitor_ID := r.Monitor_ID, OrgID := r.OrgID,
                         Tenant := r.Tenant, IsDeleted := r.IsDeleted, UpdatedAt := now },
            none), db') ∧
        db'.rows = db.rows.map (fun x =>
          if x = r then
            { ID := r.ID, Name := M, Monitor_ID := r.Monitor_ID, OrgID := r.OrgID,
              Tenant := r.Tenant, IsDeleted := r.IsDeleted, UpdatedAt := now }
          else x) ∧
        (service.Get NewRepository id db').1 =
          (Monitor.mk { ID := r.ID, Name := M, Monitor_ID := r.Monitor_ID, OrgID := r.OrgID,
                        Tenant := r.Tenant, IsDeleted := r.IsDeleted, UpdatedAt := now },
            none)) ∧
    ((∀ x ∈ db.rows, x.ID ≠ id) →
      ∃ db' : DB,
        service.Update NewRepository now id (UpdateMonitorRequest.mk M) db =
          ((Monitor.zero, some GoError.ErrNoRows), db') ∧
        db'.rows = db.rows) := by
  constructor
  · intro r hr hrid
    subst hrid
    have hf := find_of_mem_of_nodup db.rows hnd r hr
    have hu := service_Update_eq now r.ID (UpdateMonitorRequest.mk M) db hvalid
    rw [hf] at hu
    refine ⟨_, hu, ?_, ?_⟩
    · apply List.map_congr_left
      intro x hx
      by_cases hxr : x = r
      · simp [hxr]
      · have hne : ¬ x.ID = r.ID := fun h => hxr ((id_eq_iff_of_nodup db.rows hnd r hr x hx).1 h)
        simp [hxr, hne]
    · rw [service_Get_eq]
      have hfu := find_after_update db.rows r.ID r
        { r with Name := M, UpdatedAt := now } hf rfl
      simp only [hfu]
  · intro habs
    have hnone := find_none_of_absent db.rows id habs
    have hu := service_Update_eq now id (UpdateMonitorRequest.mk M) db hvalid
    rw [hnone] at hu
    exact ⟨_, hu, rfl⟩

/-- C4, on the sample store: the record under the id `a` renamed to `edge` at time 9. -/
theorem C4_update_witness :
    ∃ db' : DB,
      service.Update NewRepository 9 "a" (UpdateMonitorRequest.mk "edge") dbSample =
        ((Monitor.mk { ID := rowA.ID, Name := "edge", Monitor_ID := rowA.Monitor_ID,
                       OrgID := rowA.OrgID, Tenant := rowA.Tenant,
                       IsDeleted := rowA.IsDeleted, UpdatedAt := 9 },
          none), db') ∧
      db'.rows = dbSample.rows.map (fun x =>
        if x = rowA then
          { ID := rowA.ID, Name := "edge", Monitor_ID := rowA.Monitor_ID, OrgID := rowA.OrgID,
            Tenant := rowA.Tenant, IsDeleted := rowA.IsDeleted, UpdatedAt := 9 }
        else x) ∧
      (service.Get NewRepository "a" db').1 =
        (Monitor.mk { ID := rowA.ID, Name := "edge", Monitor_ID := rowA.Monitor_ID,
                      OrgID := rowA.OrgID, Tenant := rowA.Tenant,
                      IsDeleted := rowA.IsDeleted, UpdatedAt := 9 },
          none) :=
  (C4_update dbSample 9 "a" "edge" (by decide) (by decide)).1 rowA (by decide) rfl

/-- C5: on a store with unique ids that holds the record `r` under `id`, `service.Delete`
succeeds and returns `r` as it was stored (so with its name), removes that row and no
other, and a following `service.Get` of the id fails with the not-found error
(`sql.ErrNoRows`); for an id that no row carries, `Delete` fails with the not-found error
and leaves the rows unchanged. -/
theorem C5_delete (db : DB) (id : String)
    (hnd : (db.rows.map (fun x => x.ID)).Nodup) :
    (∀ r ∈ db.rows, r.ID = id →
      ∃ db' : DB,
        service.Delete NewRepository id db = ((Monitor.mk r, none), db') ∧
        db'.rows = db.rows.filter (fun x => decide (x ≠ r)) ∧
        (service.Get NewRepository id db').1 = (Monitor.zero, some GoError.ErrNoRows)) ∧
    ((∀ x ∈ db.rows, x.ID ≠ id) →
      ∃ db' : DB,
        service.Delete NewRepository id db = ((Monitor.zero, some GoError.ErrNoRows), db') ∧
        db'.rows = db.rows) := by
  constructor
  · intro r hr hrid
    subst hrid
    have hf := find_of_mem_of_nodup db.rows hnd r hr
    have hd := service_Delete_eq r.ID db
    rw [hf] at hd
    refine ⟨_, hd, ?_, ?_⟩
    · apply List.filter_congr
      intro x hx
      by_cases hxr : x = r
      · simp [hxr]
      · have hne : ¬ x.ID = r.ID := fun h => hxr ((id_eq_iff_of_nodup db.rows hnd r hr x hx).1 h)
        simp [hxr, hne]
    · rw [service_Get_eq]
      have hnone : (db.rows.filter (fun x => x.ID != r.ID)).find? (fun x => x.ID == r.ID) =
          none := by
        apply find_none_of_absent
        intro x hx
        simpa using (List.mem_filter.mp hx).2
      simp only [hnone]
  · intro habs
    have hnone := find_none_of_absent db.rows id habs
    have hd := service_Delete_eq id db
    rw [hnone] at hd
    exact ⟨_, hd, rfl⟩

/-- C5, on the sample store: the record under the id `b` deleted. -/
theorem C5_delete_witness :
    ∃ db' : DB,
      service.Delete NewRepository "b" dbSample = ((Monitor.mk rowB, none), db') ∧
      db'.rows = dbSample.rows.filter (fun x => decide (x ≠ rowB)) ∧
      (service.Get NewRepository "b" db').1 = (Monitor.zero, some GoError.ErrNoRows) :=
  (C5_delete dbSample "b" (by decide)).1 rowB (by decide) rfl

end monitor

/-! ## Listings -/

namespace monitor

open entity dbx

/-- For an offset and a limit that are not negative, the page is the rows from `offset` on,
at most `limit` of them. -/
theorem applyLimit_nonneg (offset limit : Int) (ho : 0 ≤ offset) (hl : 0 ≤ limit)
    (xs : List Apichecks) :
    applyLimit (BuildLimit limit offset) xs = (xs.drop offset.toNat).take limit.toNat := by
  have hl' : ¬ limit < 0 := by omega
  by_cases h0 : offset ≤ 0
  · have hz : offset = 0 := by omega
    subst hz
    simp [applyLimit, BuildLimit, hl]
  · simp [applyLimit, BuildLimit, hl, hl', h0]

/-- Rows in ascending id order with pairwise different ids are in strictly ascending id
order. -/
theorem sorted_strict_of_ne (l : List Apichecks) (hs : l.Sorted idLE)
    (hne : l.Pairwise (fun a b => a.ID ≠ b.ID)) :
    l.Sorted (fun a b => a.ID < b.ID) := by
  have hboth := List.Pairwise.and hs hne
  refine List.Pairwise.imp ?_ hboth
  intro a b hab
  rw [String.lt_iff_toList_lt]
  refine lt_of_le_of_ne hab.1 ?_
  intro heq
  exact hab.2 (String.toList_inj.mp heq)

/-- Unique ids in the table are pairwise different ids in any selection of its rows. -/
theorem pairwise_ne_filter (rows : List Apichecks) (p : Apichecks → Bool)
    (hnd : (rows.map (fun x => x.ID)).Nodup) :
    (rows.filter p).Pairwise (fun a b => a.ID ≠ b.ID) := by
  have h1 : ((rows.filter p).map (fun x => x.ID)).Nodup :=
    List.Nodup.sublist (List.Sublist.map _ (List.filter_sublist rows)) hnd
  exact List.pairwise_map.mp h1

/-- The ordered selection is the one list that holds the selected rows in strictly
ascending id order. -/
theorem ordered_unique (sel L : List Apichecks) (hperm : L.Perm sel)
    (hsorted : L.Sorted (fun a b => a.ID < b.ID)) :
    sel.insertionSort idLE = L := by
  have hneL : L.Pairwise (fun a b => a.ID ≠ b.ID) :=
    List.Pairwise.imp (fun h => ne_of_lt h) hsorted
  have hp : (sel.insertionSort idLE).Perm L :=
    (List.perm_insertionSort idLE sel).trans hperm.symm
  have hne : (sel.insertionSort idLE).Pairwise (fun a b => a.ID ≠ b.ID) :=
    (List.Perm.pairwise_iff (fun h => Ne.symm h) hp).mpr hneL
  have hs := sorted_strict_of_ne _ (List.sorted_insertionSort idLE sel) hne
  haveI : IsAntisymm Apichecks (fun a b => a.ID < b.ID) :=
    ⟨fun _ _ h1 h2 => absurd h1 (lt_asymm h2)⟩
  exact List.eq_of_perm_of_sorted hp hs hsorted

/-- `service.GetByOrg` over the database repository: one select, the page of the selected
rows in id order, each wrapped. -/
theorem service_GetByOrg_eq (org_id : String) (offset limit : Int) (db : DB) :
    service.GetByOrg NewRepository org_id offset limit db =
      (((applyLimit (BuildLimit limit offset)
          ((db.rows.filter (fun r => r.OrgID == org_id)).insertionSort idLE)).map Monitor.mk,
        none), db.exec Stmt.select) := by
  simp [service.GetByOrg, NewRepository, repository.GetByOrg, All, wrapItems_eq_map]

/-- `service.Query` over the database repository: one select, the page of all rows in id
order, each wrapped. -/
theorem service_Query_eq (offset limit : Int) (db : DB) :
    service.Query NewRepository offset limit db =
      (((applyLimit (BuildLimit limit offset) (db.rows.insertionSort idLE)).map Monitor.mk,
        none), db.exec Stmt.select) := by
  simp [service.Query, NewRepository, repository.Query, All, wrapItems_eq_map]

/-- C6: on a store with unique ids in which exactly `K` monitors have `org_id` equal to
`orgId`, `service.GetByOrg(orgId, 0, K)` returns exactly those `K` monitors, in strictly
ascending id order and without duplicates; for every offset of at least `K` and every
positive limit it returns the empty sequence and no error; and for every offset and limit
that are not negative the result is the rows of the organization in ascending id order,
cut to the positions from `offset` up to `offset + limit`. -/
theorem C6_getByOrg_pages (db : DB) (orgId : String) (K : Nat)
    (hnd : (db.rows.map (fun x => x.ID)).Nodup)
    (hK : db.rows.countP (fun r => r.OrgID == orgId) = K) :
    (∃ xs : List Monitor,
      (service.GetByOrg NewRepository orgId 0 (K : Int) db).1 = (xs, none) ∧
      xs.length = K ∧
      (xs.map (fun m => m.Apichecks)).Perm (db.rows.filter (fun r => r.OrgID == orgId)) ∧
      (xs.map (fun m => m.Apichecks.ID)).Sorted (fun a b => a < b) ∧
      xs.Nodup) ∧
    (∀ offset limit : Int, (K : Int) ≤ offset → 0 < limit →
      (service.GetByOrg NewRepository orgId offset limit db).1 = ([], none)) ∧
    (∀ (offset limit : Int) (L : List Apichecks), 0 ≤ offset → 0 ≤ limit →
      L.Perm (db.rows.filter (fun r => r.OrgID == orgId)) →
      L.Sorted (fun a b => a.ID < b.ID) →
      (service.GetByOrg NewRepository orgId offset limit db).1 =
        (((L.drop offset.toNat).take limit.toNat).map Monitor.mk, none)) := by
  have hlen : ((db.rows.filter (fun r => r.OrgID == orgId)).insertionSort idLE).length = K := by
    rw [List.length_insertionSort, ← List.countP_eq_length_filter, hK]
  have hperm := List.perm_insertionSort idLE (db.rows.filter (fun r => r.OrgID == orgId))
  have hne : ((db.rows.filter (fun r => r.OrgID == orgId)).insertionSort idLE).Pairwise
      (fun a b => a.ID ≠ b.ID) :=
    (List.Perm.pairwise_iff (fun h => Ne.symm h) hperm).mpr
      (pairwise_ne_filter db.rows _ hnd)
  have hstrict := sorted_strict_of_ne _
    (List.sorted_insertionSort idLE (db.rows.filter (fun r => r.OrgID == orgId))) hne
  refine ⟨⟨((db.rows.filter (fun r => r.OrgID == orgId)).insertionSort idLE).map Monitor.mk,
    ?_, ?_, ?_, ?_, ?_⟩, ?_, ?_⟩
  · rw [service_GetByOrg_eq, applyLimit_nonneg 0 (K : Int) (le_refl 0) (Int.natCast_nonneg K)]
    simp [List.take_of_length_le (le_of_eq hlen)]
  · simp [hlen]
  · simpa [List.map_map, Function.comp_def] using hperm
  · simp only [List.map_map, Function.comp_def]
    exact List.pairwise_map.mpr hstrict
  · have hnd1 : ((db.rows.filter (fun r => r.OrgID == orgId)).insertionSort idLE).Nodup :=
      List.Pairwise.imp (fun h heq => h (by rw [heq])) hne
    exact List.Nodup.map (fun a b h => by cases h; rfl) hnd1
  · intro offset limit ho hl
    have ho0 : 0 ≤ offset := le_trans (Int.natCast_nonneg K) ho
    rw [service_GetByOrg_eq, applyLimit_nonneg offset limit ho0 (le_of_lt hl)]
    have hdrop : List.drop offset.toNat
        ((db.rows.filter (fun r => r.OrgID == orgId)).insertionSort idLE) = [] := by
      apply List.drop_of_length_le
      rw [hlen]
      omega
    simp [hdrop]
  · intro offset limit L ho hl hL hsorted
    rw [service_GetByOrg_eq, applyLimit_nonneg offset limit ho hl,
      ordered_unique _ L hL hsorted]

/-- C6, on the sample store: the two monitors of `org1`, the page after them, and the
second position alone. -/
theorem C6_getByOrg_pages_witness :
    (∃ xs : List Monitor,
      (service.GetByOrg NewRepository "org1" 0 ((2 : Nat) : Int) dbSample).1 = (xs, none) ∧
      xs.length = 2 ∧
      (xs.map (fun m => m.Apichecks)).Perm (dbSample.rows.filter (fun r => r.OrgID == "org1")) ∧
      (xs.map (fun m => m.Apichecks.ID)).Sorted (fun a b => a < b) ∧
      xs.Nodup) ∧
    (service.GetByOrg NewRepository "org1" 2 1 dbSample).1 = ([], none) ∧
    (service.GetByOrg NewRepository "org1" 1 1 dbSample).1 =
      ((([rowA, rowB].drop (1 : Int).toNat).take (1 : Int).toNat).map Monitor.mk, none) :=
  ⟨(C6_getByOrg_pages dbSample "org1" 2 (by decide) (by decide)).1,
    (C6_getByOrg_pages dbSample "org1" 2 (by decide) (by decide)).2.1 2 1 (by decide)
      (by decide),
    (C6_getByOrg_pages dbSample "org1" 2 (by decide) (by decide)).2.2 1 1 [rowA, rowB]
      (by decide) (by decide) (by decide)
      (by
        simp only [List.Sorted, List.pairwise_cons, List.mem_singleton, forall_eq,
          List.not_mem_nil, false_implies, implies_true, List.Pairwise.nil, and_true]
        rw [String.lt_iff_toList_lt]
        decide)⟩

end monitor

/-! ## Counts, list results and storage calls -/

namespace monitor

open entity dbx

/-- C7: on every store, `service.Count` succeeds with the number `n` of stored monitors,
and `service.Query(0, n)` run next succeeds with a sequence of exactly `n` monitors that
holds every stored monitor exactly once. -/
theorem C7_count_query_agree (db : DB) :
    ∃ (n : Int) (xs : List Monitor),
      (service.Count NewRepository db).1 = (n, none) ∧
      (service.Query NewRepository 0 n (service.Count NewRepository db).2).1 = (xs, none) ∧
      (xs.length : Int) = n ∧
      (xs.map (fun m => m.Apichecks)).Perm db.rows := by
  refine ⟨(db.rows.length : Int), (db.rows.insertionSort idLE).map Monitor.mk, ?_, ?_, ?_, ?_⟩
  · simp [service.Count, NewRepository, repository.Count, CountRows]
  · rw [service_Query_eq,
      applyLimit_nonneg 0 (db.rows.length : Int) (le_refl 0) (Int.natCast_nonneg _)]
    have hrows : (service.Count NewRepository db).2.rows = db.rows := rfl
    rw [hrows]
    simp [List.take_of_length_le (le_of_eq (List.length_insertionSort idLE db.rows))]
  · simp [List.length_insertionSort]
  · simpa [List.map_map, Function.comp_def] using List.perm_insertionSort idLE db.rows

/-- C8: `service.CountByOrg` and `service.CountByTenant` return what the repository's
counting operation of the same name returns, untransformed; over the database repository
`CountByOrg(orgId)` is the number of stored monitors whose `org_id` is `orgId` and
`CountByTenant(tenant)` the number of those whose `tenant` matches; and `CountByOrg` is the
same on a store whose monitors have had their tenant replaced by any other values. -/
theorem C8_count_by_org_and_tenant :
    (∀ (σ : Type) (repo : Repository σ) (key : String) (s : σ),
      service.CountByOrg repo key s = repo.CountByOrg key s ∧
      service.CountByTenant repo key s = repo.CountByTenant key s) ∧
    (∀ (db : DB) (orgId : String),
      (service.CountByOrg NewRepository orgId db).1 =
        ((db.rows.countP (fun r => r.OrgID == orgId) : Int), none)) ∧
    (∀ (db : DB) (tenant : String),
      (service.CountByTenant NewRepository tenant db).1 =
        ((db.rows.countP (fun r => r.Tenant == tenant) : Int), none)) ∧
    (∀ (db : DB) (orgId : String) (f : Apichecks → String),
      (service.CountByOrg NewRepository orgId
          { db with rows := db.rows.map (fun r => { r with Tenant := f r }) }).1 =
        (service.CountByOrg NewRepository orgId db).1) := by
  refine ⟨fun _ _ _ _ => ⟨rfl, rfl⟩, ?_, ?_, ?_⟩
  · intro db orgId
    simp [service.CountByOrg, NewRepository, repository.CountByOrg, CountRows,
      List.countP_eq_length_filter]
  · intro db tenant
    simp [service.CountByTenant, NewRepository, repository.CountByTenant, CountRows,
      List.countP_eq_length_filter]
  · intro db orgId f
    simp [service.CountByOrg, NewRepository, repository.CountByOrg, CountRows,
      List.filter_map, Function.comp_def]

/-- C9: for `service.Query`, `service.GetByOrg` and `service.GetByTenant`, over every
repository and for every input: when the repository call fails with the error `e`, the
service returns the empty sequence together with `e`; when it succeeds with the rows `xs`,
the service returns no error and the rows of `xs`, each wrapped as a `Monitor`, in the same
order, hence a sequence of the same length. -/
theorem C9_list_results {σ : Type} (repo : Repository σ) (s : σ) (key : String)
    (offset limit : Int) :
    ((∀ (items : List Apichecks) (e : GoError) (s' : σ),
        repo.Query offset limit s = ((items, some e), s') →
        service.Query repo offset limit s = (([], some e), s')) ∧
      (∀ (xs : List Apichecks) (s' : σ),
        repo.Query offset limit s = ((xs, none), s') →
        service.Query repo offset limit s = ((xs.map Monitor.mk, none), s') ∧
        (xs.map Monitor.mk).length = xs.length)) ∧
    ((∀ (items : List Apichecks) (e : GoError) (s' : σ),
        repo.GetByOrg key offset limit s = ((items, some e), s') →
        service.GetByOrg repo key offset limit s = (([], some e), s')) ∧
      (∀ (xs : List Apichecks) (s' : σ),
        repo.GetByOrg key offset limit s = ((xs, none), s') →
        service.GetByOrg repo key offset limit s = ((xs.map Monitor.mk, none), s') ∧
        (xs.map Monitor.mk).length = xs.length)) ∧
    ((∀ (items : List Apichecks) (e : GoError) (s' : σ),
        repo.GetByTenant key offset limit s = ((items, some e), s') →
        service.GetByTenant repo key offset limit s = (([], some e), s')) ∧
      (∀ (xs : List Apichecks) (s' : σ),
        repo.GetByTenant key offset limit s = ((xs, none), s') →
        service.GetByTenant repo key offset limit s = ((xs.map Monitor.mk, none), s') ∧
        (xs.map Monitor.mk).length = xs.length)) := by
  refine ⟨⟨?_, ?_⟩, ⟨?_, ?_⟩, ⟨?_, ?_⟩⟩
  · intro items e s' h
    simp [service.Query, h]
  · intro xs s' h
    simp [service.Query, h, wrapItems_eq_map]
  · intro items e s' h
    simp [service.GetByOrg, h]
  · intro xs s' h
    simp [service.GetByOrg, h, wrapItems_eq_map]
  · intro items e s' h
    simp [service.GetByTenant, h]
  · intro xs s' h
    simp [service.GetByTenant, h, wrapItems_eq_map]

/-- C9, at concrete inputs: a listing over the unreachable repository, and the monitors of
the tenant `t1` over the sample store. -/
theorem C9_list_results_witness :
    service.Query unreachableRepository 0 10 () =
      (([], some (GoError.storage "connection refused")), ()) ∧
    (service.GetByTenant NewRepository "t1" 0 10 dbSample =
        (([rowA, rowC].map Monitor.mk, none), dbSample.exec Stmt.select) ∧
      ([rowA, rowC].map Monitor.mk).length = [rowA, rowC].length) :=
  ⟨(C9_list_results unreachableRepository () "t1" 0 10).1.1 []
      (GoError.storage "connection refused") () rfl,
    (C9_list_results NewRepository dbSample "t1" 0 10).2.2.2 [rowA, rowC]
      (dbSample.exec Stmt.select) (by decide)⟩

end monitor

namespace monitor

open entity dbx

/-- C10 fails as stated: on the sample store `service.Delete` of the id `b` succeeds after
three storage calls (the service's fetch, the repository's own fetch, the removal), and
`service.Create` with the empty name returns after none. -/
theorem C10_counterexample :
    ((service.Delete NewRepository "b" dbSample).1.2 = none ∧
      (service.Delete NewRepository "b" dbSample).2.log =
        dbSample.log ++ [Stmt.select, Stmt.select, Stmt.delete]) ∧
    (service.Delete NewRepository "b" dbSample).2.log.length = dbSample.log.length + 3 ∧
    (service.Create NewRepository "m1" 7 (CreateMonitorRequest.mk "") dbSample).2.log =
      dbSample.log := by
  decide

/-- C10, amended: every call of the service runs one or two storage statements before it
returns, with two exceptions: a `Create` or `Update` whose name fails validation runs none
(and a call that returns a validation error has run none), and a successful `Delete` runs
exactly three, the service's fetch, the repository's own fetch and then the removal. No
call runs more than three. -/
theorem C10_storage_calls (c : Call) (db : DB) :
    ∃ stmts : List Stmt,
      (c.run NewRepository db).2.log = db.log ++ stmts ∧
      stmts.length ≤ 3 ∧
      ((stmts.length = 1 ∨ stmts.length = 2) ∨
        (stmts = [] ∧ ∃ e, (c.run NewRepository db).1 = some (GoError.validation "name" e)) ∨
        (stmts = [Stmt.select, Stmt.select, Stmt.delete] ∧
          (c.run NewRepository db).1 = none ∧ ∃ id, c = Call.Delete id)) ∧
      (∀ id, c = Call.Delete id → (c.run NewRepository db).1 = none →
        stmts = [Stmt.select, Stmt.select, Stmt.delete]) ∧
      (∀ genId now input, c = Call.Create genId now input → input.Validate ≠ none →
        stmts = []) ∧
      (∀ now id input, c = Call.Update now id input → input.Validate ≠ none →
        stmts = []) ∧
      ((∃ e, (c.run NewRepository db).1 = some (GoError.validation "name" e)) →
        stmts = []) := by
  cases c with
  | Get id =>
    have hrun := service_Get_eq id db
    cases hf : db.rows.find? (fun r => r.ID == id) with
    | none =>
      rw [hf] at hrun
      refine ⟨[Stmt.select], ?_, by simp, Or.inl (Or.inl rfl), by simp, by simp, by simp, ?_⟩
      · simp [Call.run, hrun, DB.exec]
      · simp [Call.run, hrun]
    | some r =>
      rw [hf] at hrun
      refine ⟨[Stmt.select], ?_, by simp, Or.inl (Or.inl rfl), by simp, by simp, by simp, ?_⟩
      · simp [Call.run, hrun, DB.exec]
      · simp [Call.run, hrun]
  | GetByOrg org_id offset limit =>
    have hrun := service_GetByOrg_eq org_id offset limit db
    refine ⟨[Stmt.select], ?_, by simp, Or.inl (Or.inl rfl), by simp, by simp, by simp, ?_⟩
    · simp [Call.run, hrun, DB.exec]
    · simp [Call.run, hrun]
  | GetByTenant tenant offset limit =>
    have hrun : service.GetByTenant NewRepository tenant offset limit db =
        (((applyLimit (BuildLimit limit offset)
            ((db.rows.filter (fun r => r.Tenant == tenant)).insertionSort idLE)).map
              Monitor.mk, none), db.exec Stmt.select) := by
      simp [service.GetByTenant, NewRepository, repository.GetByTenant, All, wrapItems_eq_map]
    refine ⟨[Stmt.select], ?_, by simp, Or.inl (Or.inl rfl), by simp, by simp, by simp, ?_⟩
    · simp [Call.run, hrun, DB.exec]
    · simp [Call.run, hrun]
  | Query offset limit =>
    have hrun := service_Query_eq offset limit db
    refine ⟨[Stmt.select], ?_, by simp, Or.inl (Or.inl rfl), by simp, by simp, by simp, ?_⟩
    · simp [Call.run, hrun, DB.exec]
    · simp [Call.run, hrun]
  | Count =>
    refine ⟨[Stmt.select], rfl, by simp, Or.inl (Or.inl rfl), by simp, by simp, by simp, ?_⟩
    simp [Call.run, service.Count, NewRepository, repository.Count, CountRows]
  | CountByOrg org_id =>
    refine ⟨[Stmt.select], rfl, by simp, Or.inl (Or.inl rfl), by simp, by simp, by simp, ?_⟩
    simp [Call.run, service.CountByOrg, NewRepository, repository.CountByOrg, CountRows]
  | CountByTenant tenant =>
    refine ⟨[Stmt.select], rfl, by simp, Or.inl (Or.inl rfl), by simp, by simp, by simp, ?_⟩
    simp [Call.run, service.CountByTenant, NewRepository, repository.CountByTenant, CountRows]
  | Create genId now input =>
    cases hv : input.Validate with
    | some e =>
      have hrun : service.Create NewRepository genId now input db =
          ((Monitor.zero, some e), db) := by
        unfold service.Create
        rw [hv]
      have he : ∃ e', e = GoError.validation "name" e' := by
        unfold CreateMonitorRequest.Validate validation.ValidateStruct at hv
        cases hf : validation.Field input.Name
            [validation.Rule.Required, validation.Rule.Length 0 128] with
        | none => rw [hf] at hv; simp at hv
        | some e' => rw [hf] at hv; exact ⟨e', by simpa using hv.symm⟩
      obtain ⟨e', he'⟩ := he
      refine ⟨[], ?_, by simp, Or.inr (Or.inl ⟨rfl, e', ?_⟩), by simp,
        fun _ _ _ _ _ => rfl, by simp, fun _ => rfl⟩
      · simp [Call.run, hrun]
      · simp [Call.run, hrun, he']
    | none =>
      have hrun := service_Create_eq genId now input db hv
      by_cases hany : db.rows.any (fun r => r.ID == genId) = true
      · rw [if_pos hany] at hrun
        refine ⟨[Stmt.insert], ?_, by simp, Or.inl (Or.inl rfl), by simp, ?_, by simp, ?_⟩
        · simp [Call.run, hrun, DB.exec]
        · intro g n i hc hne
          cases hc
          exact absurd hv hne
        · simp [Call.run, hrun]
      · rw [if_neg hany] at hrun
        refine ⟨[Stmt.insert, Stmt.select], ?_, by simp, Or.inl (Or.inr rfl), by simp, ?_,
          by simp, ?_⟩
        · simp [Call.run, hrun]
        · intro g n i hc hne
          cases hc
          exact absurd hv hne
        · simp [Call.run, hrun]
  | Update now id input =>
    cases hv : input.Validate with
    | some e =>
      have hrun : service.Update NewRepository now id input db =
          ((Monitor.zero, some e), db) := by
        unfold service.Update
        rw [hv]
      have he : ∃ e', e = GoError.validation "name" e' := by
        unfold UpdateMonitorRequest.Validate validation.ValidateStruct at hv
        cases hf : validation.Field input.Name
            [validation.Rule.Required, validation.Rule.Length 0 128] with
        | none => rw [hf] at hv; simp at hv
        | some e' => rw [hf] at hv; exact ⟨e', by simpa using hv.symm⟩
      obtain ⟨e', he'⟩ := he
      refine ⟨[], ?_, by simp, Or.inr (Or.inl ⟨rfl, e', ?_⟩), by simp, by simp,
        fun _ _ _ _ _ => rfl, fun _ => rfl⟩
      · simp [Call.run, hrun]
      · simp [Call.run, hrun, he']
    | none =>
      have hrun := service_Update_eq now id input db hv
      cases hf : db.rows.find? (fun r => r.ID == id) with
      | none =>
        rw [hf] at hrun
        refine ⟨[Stmt.select], ?_, by simp, Or.inl (Or.inl rfl), by simp, by simp, ?_, ?_⟩
        · simp [Call.run, hrun, DB.exec]
        · intro n i inp hc hne
          cases hc
          exact absurd hv hne
        · simp [Call.run, hrun]
      | some r =>
        rw [hf] at hrun
        refine ⟨[Stmt.select, Stmt.update], ?_, by simp, Or.inl (Or.inr rfl), by simp,
          by simp, ?_, ?_⟩
        · simp [Call.run, hrun]
        · intro n i inp hc hne
          cases hc
          exact absurd hv hne
        · simp [Call.run, hrun]
  | Delete id =>
    have hrun := service_Delete_eq id db
    cases hf : db.rows.find? (fun r => r.ID == id) with
    | none =>
      rw [hf] at hrun
      refine ⟨[Stmt.select], ?_, by simp, Or.inl (Or.inl rfl), ?_, by simp, by simp, ?_⟩
      · simp [Call.run, hrun, DB.exec]
      · intro id' _ hok
        simp [Call.run, hrun] at hok
      · simp [Call.run, hrun]
    | some r =>
      rw [hf] at hrun
      refine ⟨[Stmt.select, Stmt.select, Stmt.delete], ?_, by simp,
        Or.inr (Or.inr ⟨rfl, ?_, id, rfl⟩), fun _ _ _ => rfl, by simp, by simp, ?_⟩
      · simp [Call.run, hrun]
      · simp [Call.run, hrun]
      · simp [Call.run, hrun]

/-- C10 amended, on the sample store: an `Update` with the empty name leaves the trace of
statements as it was, a `Create` with the empty name too, and the successful `Delete` of
the id `b` adds the three statements select, select, delete. -/
theorem C10_storage_calls_witness :
    ((Call.Update 9 "a" (UpdateMonitorRequest.mk "")).run NewRepository dbSample).2.log =
      dbSample.log ∧
    ((Call.Create "m1" 7 (CreateMonitorRequest.mk "")).run NewRepository dbSample).2.log =
      dbSample.log ∧
    ((Call.Delete "b").run NewRepository dbSample).2.log =
      dbSample.log ++ [Stmt.select, Stmt.select, Stmt.delete] := by
  refine ⟨?_, ?_, ?_⟩
  · obtain ⟨stmts, hlog, _, _, _, _, hupd, _⟩ :=
      C10_storage_calls (Call.Update 9 "a" (UpdateMonitorRequest.mk "")) dbSample
    rw [hlog, hupd 9 "a" (UpdateMonitorRequest.mk "") rfl (by decide)]
    simp
  · obtain ⟨stmts, hlog, _, _, _, hcre, _, _⟩ :=
      C10_storage_calls (Call.Create "m1" 7 (CreateMonitorRequest.mk "")) dbSample
    rw [hlog, hcre "m1" 7 (CreateMonitorRequest.mk "") rfl (by decide)]
    simp
  · obtain ⟨stmts, hlog, _, _, hdel, _, _, _⟩ :=
      C10_storage_calls (Call.Delete "b") dbSample
    rw [hlog, hdel "b" rfl (by decide)]

end monitor

/-! ## The primary key stays unique -/

namespace monitor

open entity dbx

/-- Every call of the service over the database repository keeps the ids of the stored
rows pairwise different. -/
theorem run_preserves_unique_ids (c : Call) (db : DB)
    (hnd : (db.rows.map (fun x => x.ID)).Nodup) :
    ((c.run NewRepository db).2.rows.map (fun x => x.ID)).Nodup := by
  cases c with
  | Get id =>
    simp only [Call.run, service_Get_eq]
    cases db.rows.find? (fun r => r.ID == id) <;> exact hnd
  | GetByOrg org_id offset limit =>
    simp only [Call.run, service_GetByOrg_eq]
    exact hnd
  | GetByTenant tenant offset limit =>
    simpa [Call.run, service.GetByTenant, NewRepository, repository.GetByTenant, All, DB.exec]
      using hnd
  | Query offset limit =>
    simp only [Call.run, service_Query_eq]
    exact hnd
  | Count => exact hnd
  | CountByOrg org_id => exact hnd
  | CountByTenant tenant => exact hnd
  | Create genId now input =>
    cases hv : input.Validate with
    | some e =>
      have hrun : service.Create NewRepository genId now input db =
          ((Monitor.zero, some e), db) := by
        unfold service.Create
        rw [hv]
      simpa [Call.run, hrun] using hnd
    | none =>
      have hrun := service_Create_eq genId now input db hv
      by_cases hany : db.rows.any (fun r => r.ID == genId) = true
      · rw [if_pos hany] at hrun
        simpa [Call.run, hrun, DB.exec] using hnd
      · rw [if_neg hany] at hrun
        have hfresh : genId ∉ db.rows.map (fun x => x.ID) := by
          intro hmem
          obtain ⟨x, hx, hxid⟩ := List.mem_map.mp hmem
          exact hany (List.any_eq_true.mpr ⟨x, hx, by simpa using hxid⟩)
        simp only [Call.run, hrun, List.map_append, List.map_cons, List.map_nil]
        exact List.Nodup.append hnd (List.nodup_singleton _)
          (List.disjoint_singleton.mpr hfresh)
  | Update now id input =>
    cases hv : input.Validate with
    | some e =>
      have hrun : service.Update NewRepository now id input db =
          ((Monitor.zero, some e), db) := by
        unfold service.Update
        rw [hv]
      simpa [Call.run, hrun] using hnd
    | none =>
      have hrun := service_Update_eq now id input db hv
      cases hf : db.rows.find? (fun r => r.ID == id) with
      | none =>
        rw [hf] at hrun
        simpa [Call.run, hrun, DB.exec] using hnd
      | some r =>
        rw [hf] at hrun
        have hids : (db.rows.map (fun x =>
            if x.ID = r.ID then { r with Name := input.Name, UpdatedAt := now } else x)).map
              (fun x => x.ID) = db.rows.map (fun x => x.ID) := by
          rw [List.map_map]
          apply List.map_congr_left
          intro x _
          by_cases hx : x.ID = r.ID
          · simp [hx]
          · simp [hx]
        simp only [Call.run, hrun, hids]
        exact hnd
  | Delete id =>
    have hrun := service_Delete_eq id db
    cases hf : db.rows.find? (fun r => r.ID == id) with
    | none =>
      rw [hf] at hrun
      simpa [Call.run, hrun, DB.exec] using hnd
    | some r =>
      rw [hf] at hrun
      simp only [Call.run, hrun]
      exact List.Nodup.sublist (List.Sublist.map _ (List.filter_sublist db.rows)) hnd

end monitor
